import Mathlib

/-!
Verification of the auto_clicker repository (src/auto_clicker/src/main.rs).

The embedding follows the source file closely:

* f64 coordinates, distances and durations are modelled as rationals;
* console output (println / eprintln) is modelled as a returned list of
  log lines, one string per emitted line;
* the RNG is modelled as an abstract stream of draws together with the
  distribution mean, since sample_positive only inspects draws and mean;
* the shared state mutated through an atomic flag and a mutex is modelled
  as a plain record threaded through the functions: every critical section
  in the source is a single Lean function application;
* real time inside adaptive_wait is a discrete clock in nanoseconds, the
  granularity of the Duration type used by the source.
-/

namespace AutoClicker

/-- Keyboard keys; the source only ever distinguishes the toggle key. -/
inductive Key where
  | F8
  | OtherKey
deriving DecidableEq, Repr

/-- Hotkey for turning auto clicker on and off. -/
def RUNNING_TOGGLE_KEY : Key := Key.F8

/-- Time between clicks, mean (ms). -/
def CLICK_INTERVAL_MEAN_MS : ℚ := 1200

/-- Time between clicks, standard deviation (ms). -/
def CLICK_INTERVAL_SD_MS : ℚ := CLICK_INTERVAL_MEAN_MS / 6

/-- Time between click down and up, mean (ms). -/
def HOLD_DURATION_MEAN_MS : ℚ := 85

/-- Time between click down and up, standard deviation (ms). -/
def HOLD_DURATION_SD_MS : ℚ := HOLD_DURATION_MEAN_MS / 6

/-- Stop after moving mouse more than this many pixels. -/
def MOVE_STOP_DISTANCE_PX : ℚ := 16

/-- Mouse buttons; the source only uses the left button. -/
inductive Button where
  | Left
  | Right
deriving DecidableEq, Repr

/-- The event types of the rdev capability that the source matches on. -/
inductive EventType where
  | KeyPress (k : Key)
  | KeyRelease (k : Key)
  | ButtonPress (b : Button)
  | ButtonRelease (b : Button)
  | MouseMove (x y : ℚ)
  | Wheel
deriving DecidableEq, Repr

/-- The shared run state: atomic armed flag plus mutex-guarded origin. -/
structure Data where
  is_running : Bool
  initial_mouse_pos : Option (ℚ × ℚ)
deriving DecidableEq, Repr

/-- Data::new: armed flag false, no recorded origin. -/
def Data.new : Data :=
  { is_running := false, initial_mouse_pos := none }

/-- Data::get_running: sequentially consistent load of the armed flag. -/
def Data.get_running (d : Data) : Bool :=
  d.is_running

/-- Data::set_running: no-op when the value is unchanged; on an effective
flip to true the recorded origin is cleared before the flag is stored;
every effective transition emits one log line. -/
def Data.set_running (d : Data) (new_running : Bool) (reason : String) :
    Data × List String :=
  if new_running = d.get_running then
    (d, [])
  else
    let d1 := if new_running then { d with initial_mouse_pos := none } else d
    let d2 := { d1 with is_running := new_running }
    let new_running_str := if new_running then "ON " else "OFF"
    (d2, ["Auto clicker: " ++ new_running_str ++ " (" ++ reason ++ ")"])

/-- handle_event: the listener callback body.  A toggle-key press flips the
armed flag; a mouse move, while armed, captures the origin on first sight
and otherwise disarms when the squared displacement strictly exceeds the
squared threshold; all other events are ignored. -/
def handle_event (event : EventType) (d : Data) : Data × List String :=
  match event with
  | EventType.KeyPress k =>
      if k = RUNNING_TOGGLE_KEY then
        let new_running := !d.get_running
        d.set_running new_running ("hotkey pressed")
      else
        (d, [])
  | EventType.MouseMove x y =>
      if !d.get_running then
        (d, [])
      else
        match d.initial_mouse_pos with
        | some (initial_x, initial_y) =>
            let dx := x - initial_x
            let dy := y - initial_y
            let dist_sq := dx * dx + dy * dy
            if dist_sq > MOVE_STOP_DISTANCE_PX * MOVE_STOP_DISTANCE_PX then
              d.set_running false ("mouse moved")
            else
              (d, [])
        | none =>
            ({ d with initial_mouse_pos := some (x, y) }, [])
  | _ => (d, [])

/-- The for-loop inside sample_positive: `i` is the index of the next draw,
the second argument the number of remaining attempts; on exhaustion the
diagnostic is emitted and the mean returned. -/
def sample_positive_loop (mean : ℚ) (draws : ℕ → ℚ) : ℕ → ℕ → ℚ × List String
  | _, 0 => (mean, ["Error generating a positive sample"])
  | i, Nat.succ k =>
      let value := draws i
      if value > 0 then
        (value, [])
      else
        sample_positive_loop mean draws (i + 1) k

/-- sample_positive: up to 10 draws from the distribution, returning the
first strictly positive one, or the mean with a diagnostic. -/
def sample_positive (mean : ℚ) (draws : ℕ → ℚ) : ℚ × List String :=
  sample_positive_loop mean draws 0 10

/-- A call to the rdev simulate capability, as issued by send_event. -/
inductive SimCall where
  | press (b : Button)
  | release (b : Button)
deriving DecidableEq, Repr

/-- One iteration of the clicker_thread loop: when the state is not armed
the thread just sleeps and issues no simulate call; when armed it samples
the two durations (passed here as the already-sampled values) and issues a
left-button press followed by the matching release, with waits in between.
The only operation on the shared state is the get_running read, so the
state is returned unchanged. -/
def clicker_cycle (d : Data) (hold_duration_ms click_interval_ms : ℚ) :
    List SimCall × Data :=
  if !d.get_running then
    ([], d)
  else
    ([SimCall.press Button.Left, SimCall.release Button.Left], d)

/-- The adaptive_wait loop over a discrete clock in nanoseconds.  `end_`
is the precomputed end instant; each iteration re-reads the clock, breaks
once the end instant is reached, and otherwise sleeps a quarter of the
remaining time.  `eps j` is the positive extra amount by which real time
advances past the requested sleep in iteration `j`; `fuel` bounds the
number of iterations so the model is total, returning `some now` when the
loop breaks inside the budget. -/
def adaptive_wait_loop (eps : ℕ → ℕ) (end_ : ℕ) :
    ℕ → ℕ → ℕ → Option ℕ
  | 0, _, _ => none
  | Nat.succ fuel, now, j =>
      if end_ ≤ now then
        some now
      else
        adaptive_wait_loop eps end_ fuel (now + (end_ - now) / 4 + eps j) (j + 1)

/-- After any set_running call the armed flag equals the requested value
(unchanged when it already was that value, stored otherwise). -/
lemma set_running_flag (d : Data) (v : Bool) (r : String) :
    (d.set_running v r).1.get_running = v := by
  unfold Data.set_running Data.get_running
  by_cases h : v = d.is_running
  · simp [h]
  · simp [h]

/-- The recorded origin after set_running: cleared exactly by an
effective false-to-true transition, untouched otherwise. -/
lemma set_running_origin (d : Data) (v : Bool) (r : String) :
    (d.set_running v r).1.initial_mouse_pos =
      if v = true ∧ d.get_running = false then none else d.initial_mouse_pos := by
  unfold Data.set_running
  by_cases h : v = d.get_running
  · subst h
    cases hr : d.get_running <;> simp [hr, Data.get_running] at *
  · cases hv : v <;> cases hr : d.get_running <;>
      simp [hv, hr, Data.get_running] at h ⊢

/-- set_running with the current value is a complete no-op. -/
lemma set_running_noop (d : Data) (v : Bool) (r : String) (h : v = d.get_running) :
    d.set_running v r = (d, []) := by
  unfold Data.set_running
  simp [h]

/-- An effective set_running call emits exactly one log line, in the
format actually produced by the source. -/
lemma set_running_log (d : Data) (v : Bool) (r : String) (h : ¬ v = d.get_running) :
    (d.set_running v r).2 =
      ["Auto clicker: " ++ (if v then "ON " else "OFF") ++ " (" ++ r ++ ")"] := by
  unfold Data.set_running
  simp [h]

/-- Number of log lines emitted by one set_running call. -/
lemma set_running_log_length (d : Data) (v : Bool) (r : String) :
    (d.set_running v r).2.length = if v = d.get_running then 0 else 1 := by
  by_cases h : v = d.get_running
  · rw [set_running_noop d v r h]
    simp [h]
  · rw [set_running_log d v r h]
    simp [h]

/-- The sampling loop returns a positive value whenever the mean is
positive: each possible result is either a draw tested positive or the
mean itself. -/
lemma sample_positive_loop_pos (mean : ℚ) (draws : ℕ → ℚ) (hmean : 0 < mean) :
    ∀ k i, 0 < (sample_positive_loop mean draws i k).1 := by
  intro k
  induction k with
  | zero => intro i; simpa [sample_positive_loop] using hmean
  | succ k ih =>
      intro i
      unfold sample_positive_loop
      by_cases h : draws i > 0
      · simpa [h] using h
      · simpa [h] using ih (i + 1)

/-- If none of the next `k` draws starting at index `i` is positive, the
sampling loop falls back to the mean and emits the diagnostic. -/
lemma sample_positive_loop_exhaust (mean : ℚ) (draws : ℕ → ℚ) :
    ∀ k i, (∀ j, j < k → ¬ draws (i + j) > 0) →
      sample_positive_loop mean draws i k =
        (mean, ["Error generating a positive sample"]) := by
  intro k
  induction k with
  | zero => intro i _; rfl
  | succ k ih =>
      intro i h
      unfold sample_positive_loop
      have h0 : ¬ draws i > 0 := by simpa using h 0 (Nat.succ_pos k)
      simp only [h0, if_false]
      exact ih (i + 1) fun j hj => by
        have := h (j + 1) (Nat.succ_lt_succ hj)
        simpa [Nat.add_assoc, Nat.add_comm 1 j] using this

/-- If the draw at offset `m < k` is the first positive one, the sampling
loop returns it with no diagnostic. -/
lemma sample_positive_loop_found (mean : ℚ) (draws : ℕ → ℚ) :
    ∀ k i m, m < k → draws (i + m) > 0 → (∀ j, j < m → ¬ draws (i + j) > 0) →
      sample_positive_loop mean draws i k = (draws (i + m), []) := by
  intro k
  induction k with
  | zero => intro i m hm; exact absurd hm (Nat.not_lt_zero m)
  | succ k ih =>
      intro i m hm hpos hmin
      unfold sample_positive_loop
      cases m with
      | zero =>
          have : draws i > 0 := by simpa using hpos
          simp [this]
      | succ m =>
          have h0 : ¬ draws i > 0 := by simpa using hmin 0 (Nat.succ_pos m)
          simp only [h0, if_false]
          have hres := ih (i + 1) m (Nat.lt_of_succ_lt_succ hm)
            (by simpa [Nat.add_assoc, Nat.add_comm 1 m] using hpos)
            (fun j hj => by
              have := hmin (j + 1) (Nat.succ_lt_succ hj)
              simpa [Nat.add_assoc, Nat.add_comm 1 j] using this)
          simpa [Nat.add_assoc, Nat.add_comm 1 m] using hres

/-- A toggle-key press is exactly a set_running call with the negated
current flag. -/
lemma handle_toggle (d : Data) :
    handle_event (EventType.KeyPress RUNNING_TOGGLE_KEY) d
      = d.set_running (!d.get_running) ("hotkey pressed") := by
  simp [handle_event]

/-- A mouse move while armed with no recorded origin captures the origin
and emits nothing. -/
lemma handle_move_capture (d : Data) (x y : ℚ) (hg : d.get_running = true)
    (ho : d.initial_mouse_pos = none) :
    handle_event (EventType.MouseMove x y) d
      = ({ d with initial_mouse_pos := some (x, y) }, []) := by
  simp [handle_event, hg, ho]

/-- A mouse move while armed with a recorded origin runs the distance
check: disarm on strict excess of the squared threshold, no-op otherwise. -/
lemma handle_move_check (d : Data) (x y px py : ℚ) (hg : d.get_running = true)
    (ho : d.initial_mouse_pos = some (px, py)) :
    handle_event (EventType.MouseMove x y) d
      = if (x - px) * (x - px) + (y - py) * (y - py) >
            MOVE_STOP_DISTANCE_PX * MOVE_STOP_DISTANCE_PX
        then d.set_running false ("mouse moved")
        else (d, []) := by
  simp [handle_event, hg, ho]

/-- C3: while armed with recorded origin (ox, oy), a mouse move to (x, y)
disarms if and only if the squared Euclidean displacement strictly exceeds
the squared threshold; in particular a move of exactly the threshold
distance does not disarm and any strictly larger move does. -/
theorem move_disarm_iff (d : Data) (ox oy x y : ℚ)
    (harmed : d.get_running = true)
    (horigin : d.initial_mouse_pos = some (ox, oy)) :
    (handle_event (EventType.MouseMove x y) d).1.get_running = false ↔
      (x - ox) * (x - ox) + (y - oy) * (y - oy) >
        MOVE_STOP_DISTANCE_PX * MOVE_STOP_DISTANCE_PX := by
  rw [handle_move_check d x y ox oy harmed horigin]
  by_cases hdist : (x - ox) * (x - ox) + (y - oy) * (y - oy) >
      MOVE_STOP_DISTANCE_PX * MOVE_STOP_DISTANCE_PX
  · simp [hdist, set_running_flag]
  · simp [hdist, harmed]

/-- C3 witness: from origin (0, 0) with threshold 16 px, a move to
(20, 20) (squared distance 800 > 256) disarms, while a move to (16, 0)
(squared distance exactly 256) does not. -/
theorem move_disarm_iff_witness :
    (handle_event (EventType.MouseMove 20 20)
        { is_running := true, initial_mouse_pos := some (0, 0) }).1.get_running
      = false ∧
    ¬ (handle_event (EventType.MouseMove 16 0)
        { is_running := true, initial_mouse_pos := some (0, 0) }).1.get_running
      = false := by
  constructor
  · exact (move_disarm_iff
        { is_running := true, initial_mouse_pos := some (0, 0) }
        0 0 20 20 rfl rfl).mpr
      (by norm_num [MOVE_STOP_DISTANCE_PX])
  · intro hcon
    have h := (move_disarm_iff
        { is_running := true, initial_mouse_pos := some (0, 0) }
        0 0 16 0 rfl rfl).mp hcon
    norm_num [MOVE_STOP_DISTANCE_PX] at h

/-- C4: sample_positive returns the first strictly positive draw among at
most 10, and when all 10 draws are non-positive it returns exactly the
mean after emitting the diagnostic line; in every case it returns a value,
never failing. -/
theorem sample_positive_contract (mean : ℚ) (draws : ℕ → ℚ) :
    (∀ m, m < 10 → draws m > 0 → (∀ j, j < m → ¬ draws j > 0) →
        sample_positive mean draws = (draws m, [])) ∧
    ((∀ j, j < 10 → ¬ draws j > 0) →
        sample_positive mean draws
          = (mean, ["Error generating a positive sample"])) := by
  constructor
  · intro m hm hpos hmin
    have h := sample_positive_loop_found mean draws 10 0 m hm
      (by simpa using hpos) (fun j hj => by simpa using hmin j hj)
    simpa [sample_positive] using h
  · intro h
    have h2 := sample_positive_loop_exhaust mean draws 10 0
      (fun j hj => by simpa using h j hj)
    simpa [sample_positive] using h2

/-- C4 witness: with the first positive draw at index 3 the sampler
returns that draw with no diagnostic, and with all draws negative it
returns the mean with the diagnostic. -/
theorem sample_positive_contract_witness :
    sample_positive 7 (fun j => if j = 3 then 5 else -1) = (5, []) ∧
    sample_positive 7 (fun _ => -1)
      = (7, ["Error generating a positive sample"]) := by
  constructor
  · have h := (sample_positive_contract 7
        (fun j => if j = 3 then (5 : ℚ) else -1)).1 3
      (by norm_num) (by norm_num)
      (fun j hj => by
        rw [if_neg (by omega)]
        norm_num)
    simpa using h
  · exact (sample_positive_contract 7 (fun _ => (-1 : ℚ))).2
      (fun j hj => by norm_num)

/-- C5: set_running is idempotent: a call with the current value is a
complete no-op with no log line, and a repeated call with the same value
logs exactly once when the value differed and zero times when it already
matched. -/
theorem set_running_idempotent (d : Data) (v : Bool) (r1 r2 : String) :
    (v = d.get_running → d.set_running v r1 = (d, [])) ∧
    ((d.set_running v r1).1.set_running v r2).2 = [] ∧
    ((d.set_running v r1).2.length
        + ((d.set_running v r1).1.set_running v r2).2.length)
      = if v = d.get_running then 0 else 1 := by
  have hsecond := set_running_noop (d.set_running v r1).1 v r2
    (set_running_flag d v r1).symm
  refine ⟨fun h => set_running_noop d v r1 h, by rw [hsecond], ?_⟩
  rw [hsecond]
  simp [set_running_log_length]

/-- C5 witness: on the initial (disarmed) state, set_running false is a
no-op returning the state unchanged with no log line. -/
theorem set_running_idempotent_witness :
    Data.new.set_running false ("w1") = (Data.new, []) :=
  (set_running_idempotent Data.new false ("w1") ("w2")).1 rfl

/-- C6: in one iteration of the clicker loop, no simulate call is issued
while the state is not armed, and while armed exactly two calls are
issued: a left-button press followed by the matching left-button
release. -/
theorem clicker_cycle_calls (d : Data) (h c : ℚ) :
    (d.get_running = false → (clicker_cycle d h c).1 = []) ∧
    (d.get_running = true →
      (clicker_cycle d h c).1
        = [SimCall.press Button.Left, SimCall.release Button.Left]) := by
  constructor <;> intro hg <;> simp [clicker_cycle, Data.get_running] at hg ⊢ <;>
    simp [hg]

/-- C6 witness: a concrete idle state issues no calls and a concrete
armed state issues press then release. -/
theorem clicker_cycle_calls_witness :
    (clicker_cycle Data.new 1 2).1 = [] ∧
    (clicker_cycle { is_running := true, initial_mouse_pos := none } 1 2).1
      = [SimCall.press Button.Left, SimCall.release Button.Left] :=
  ⟨(clicker_cycle_calls Data.new 1 2).1 rfl,
   (clicker_cycle_calls { is_running := true, initial_mouse_pos := none } 1 2).2
     rfl⟩

/-- C8: the clicker loop never mutates the shared state: each iteration
returns the state it was given, so both the armed flag and the recorded
origin are unchanged by the Click Engine. -/
theorem clicker_cycle_read_only (d : Data) (h c : ℚ) :
    (clicker_cycle d h c).2 = d ∧
    (clicker_cycle d h c).2.get_running = d.get_running ∧
    (clicker_cycle d h c).2.initial_mouse_pos = d.initial_mouse_pos := by
  have hd : (clicker_cycle d h c).2 = d := by
    unfold clicker_cycle
    split_ifs <;> rfl
  exact ⟨hd, by rw [hd], by rw [hd]⟩

/-- C9: for a strictly positive mean, sample_positive always returns a
strictly positive duration (a positive draw or the mean fallback), and
the two means the clicker actually uses are strictly positive, so the
durations handed to the waits are never negative. -/
theorem sample_positive_pos_duration (mean : ℚ) (draws : ℕ → ℚ)
    (hmean : 0 < mean) :
    0 < (sample_positive mean draws).1 ∧
    0 < CLICK_INTERVAL_MEAN_MS ∧ 0 < HOLD_DURATION_MEAN_MS :=
  ⟨sample_positive_loop_pos mean draws hmean 10 0,
   by norm_num [CLICK_INTERVAL_MEAN_MS],
   by norm_num [HOLD_DURATION_MEAN_MS]⟩

/-- C9 witness: even with every draw negative, the sampler called with
the configured click-interval mean returns a strictly positive value. -/
theorem sample_positive_pos_duration_witness :
    0 < (sample_positive CLICK_INTERVAL_MEAN_MS (fun _ => -1)).1 :=
  (sample_positive_pos_duration CLICK_INTERVAL_MEAN_MS (fun _ => -1)
    (by norm_num [CLICK_INTERVAL_MEAN_MS])).1

/-- Termination bound for the adaptive wait loop: once the fuel exceeds
the remaining nanoseconds the loop is guaranteed to break, because every
iteration advances the clock by at least one unit. -/
lemma adaptive_wait_loop_term (eps : ℕ → ℕ) (heps : ∀ j, 1 ≤ eps j)
    (end_ : ℕ) :
    ∀ n now j, end_ - now ≤ n →
      (adaptive_wait_loop eps end_ (n + 1) now j).isSome = true := by
  intro n
  induction n with
  | zero =>
      intro now j h
      have hle : end_ ≤ now := by omega
      simp [adaptive_wait_loop, hle]
  | succ n ih =>
      intro now j h
      by_cases hle : end_ ≤ now
      · simp [adaptive_wait_loop, hle]
      · have h1 := heps j
        have hstep : end_ - (now + (end_ - now) / 4 + eps j) ≤ n := by omega
        have hnext := ih (now + (end_ - now) / 4 + eps j) (j + 1) hstep
        simpa [adaptive_wait_loop, hle] using hnext

/-- C10: the adaptive wait terminates for every finite duration: under
the assumption that each iteration advances the clock by a positive
amount, the loop breaks within remaining-time-plus-one iterations,
starting from any clock value and iteration index. -/
theorem adaptive_wait_terminates (eps : ℕ → ℕ) (heps : ∀ j, 1 ≤ eps j)
    (end_ now j : ℕ) :
    (adaptive_wait_loop eps end_ (end_ - now + 1) now j).isSome = true :=
  adaptive_wait_loop_term eps heps end_ (end_ - now) now j (le_refl _)

/-- C10 witness: with a one-nanosecond advance per iteration the loop
waiting until instant 10 from instant 0 breaks within the bound. -/
theorem adaptive_wait_terminates_witness :
    (adaptive_wait_loop (fun _ => 1) 10 (10 - 0 + 1) 0 0).isSome = true :=
  adaptive_wait_terminates (fun _ => 1) (fun _ => le_refl 1) 10 0 0

/-- C1 counterexample: starting from the initial state, two consecutive
toggle-key press events handled by the listener record two effective
transitions (armed, then disarmed again), not one: each press recomputes
the toggle from the then-current flag. -/
theorem toggle_double_press_two_transitions :
    ((handle_event (EventType.KeyPress Key.F8) Data.new).2.length
        + (handle_event (EventType.KeyPress Key.F8)
            (handle_event (EventType.KeyPress Key.F8) Data.new).1).2.length)
      = 2 ∧
    ¬ ((handle_event (EventType.KeyPress Key.F8) Data.new).2.length
        + (handle_event (EventType.KeyPress Key.F8)
            (handle_event (EventType.KeyPress Key.F8) Data.new).1).2.length)
      = 1 := by
  constructor
  · rfl
  · intro h
    exact absurd h (by decide)

/-- C1 (amended): two consecutively handled toggle-key presses always
record two effective transitions; a double delivery is coalesced into
exactly one recorded transition only when both deliveries request the
same target value computed from the same prior state, in which case the
idempotence check of set_running absorbs the second call. -/
theorem toggle_double_delivery (d : Data) (r1 r2 : String) :
    ((d.set_running (!d.get_running) r1).2.length
        + ((d.set_running (!d.get_running) r1).1.set_running
            (!d.get_running) r2).2.length) = 1 ∧
    ((handle_event (EventType.KeyPress RUNNING_TOGGLE_KEY) d).2.length
        + (handle_event (EventType.KeyPress RUNNING_TOGGLE_KEY)
            (handle_event (EventType.KeyPress RUNNING_TOGGLE_KEY) d).1).2.length)
      = 2 := by
  have hg : ¬ (!d.get_running) = d.get_running := by
    cases d.is_running <;> simp [Data.get_running]
  have hsecond := set_running_noop (d.set_running (!d.get_running) r1).1
    (!d.get_running) r2 (set_running_flag d (!d.get_running) r1).symm
  constructor
  · rw [hsecond, set_running_log_length, if_neg hg]
    simp
  · simp only [handle_toggle, set_running_log_length, set_running_flag]
    rw [if_neg hg, if_neg (by cases (!d.get_running) <;> simp)]

/-- C7 counterexample: the ON log line is padded with an extra space
(the source prints the three-character string ON-space), so the emitted
line is not of the single-space form the claim states. -/
theorem log_format_padding_counterexample :
    (Data.new.set_running true ("hotkey pressed")).2
      = ["Auto clicker: ON  (hotkey pressed)"] ∧
    ¬ ("Auto clicker: ON  (hotkey pressed)"
        = "Auto clicker: ON (hotkey pressed)") := by
  constructor
  · rfl
  · decide

/-- C7 (amended): every effective armed-state transition emits exactly
one log line of the form Auto clicker: ON-space or OFF, then the reason
in parentheses: the ON variant carries a padding space so that ON and
OFF lines align, giving a double space before the opening parenthesis. -/
theorem effective_transition_log (d : Data) (v : Bool) (r : String)
    (h : ¬ v = d.get_running) :
    (d.set_running v r).2
      = ["Auto clicker: " ++ (if v then "ON " else "OFF") ++ " (" ++ r ++ ")"] :=
  set_running_log d v r h

/-- C7 witness: arming from the initial state emits the single padded
ON line. -/
theorem effective_transition_log_witness :
    (Data.new.set_running true ("w")).2
      = ["Auto clicker: " ++ (if true then "ON " else "OFF") ++ " (" ++ "w" ++ ")"] :=
  effective_transition_log Data.new true ("w") (by decide)

/-- C2: the recorded origin is reset to none exactly on an effective
false-to-true transition of the armed flag: arming from disarmed yields a
state that is armed with no origin (so no state with the flag true and a
stale origin is ever produced, the critical section being atomic);
disarming and redundant arming leave the origin untouched; across the
whole event handler, the origin can only become none through such an
arming transition; and after disarming with origin pp and re-arming, the
first mouse move to qq records qq as the new origin while staying
armed. -/
theorem arm_origin_reset_invariant :
    (∀ (d : Data) (r : String), d.get_running = false →
        (d.set_running true r).1.initial_mouse_pos = none ∧
        (d.set_running true r).1.get_running = true) ∧
    (∀ (d : Data) (r : String),
        (d.set_running false r).1.initial_mouse_pos = d.initial_mouse_pos) ∧
    (∀ (d : Data) (r : String), d.get_running = true →
        (d.set_running true r).1 = d) ∧
    (∀ (d : Data) (ev : EventType),
        ¬ d.initial_mouse_pos = none →
        (handle_event ev d).1.initial_mouse_pos = none →
        d.get_running = false ∧ (handle_event ev d).1.get_running = true) ∧
    (∀ (d : Data) (pp qq : ℚ × ℚ) (r1 r2 : String),
        d.get_running = true → d.initial_mouse_pos = some pp →
        (handle_event (EventType.MouseMove qq.1 qq.2)
            (((d.set_running false r1).1.set_running true r2).1)).1.initial_mouse_pos
          = some qq ∧
        (handle_event (EventType.MouseMove qq.1 qq.2)
            (((d.set_running false r1).1.set_running true r2).1)).1.get_running
          = true) := by
  refine ⟨?arm, ?disarm, ?noop, ?only, ?rearm⟩
  case arm =>
    intro d r hg
    refine ⟨?_, set_running_flag d true r⟩
    rw [set_running_origin]
    simp [hg]
  case disarm =>
    intro d r
    rw [set_running_origin]
    simp
  case noop =>
    intro d r hg
    have := set_running_noop d true r hg.symm
    rw [this]
  case only =>
    intro d ev hsome hnone
    cases ev with
    | KeyPress k =>
        by_cases hk : k = RUNNING_TOGGLE_KEY
        · subst hk
          rw [handle_toggle] at hnone ⊢
          rw [set_running_origin] at hnone
          cases hg : d.get_running with
          | false =>
              exact ⟨rfl, by simp [set_running_flag]⟩
          | true =>
              rw [hg] at hnone
              simp at hnone
              exact absurd hnone hsome
        · simp [handle_event, hk] at hnone
          exact absurd hnone hsome
    | KeyRelease k =>
        simp [handle_event] at hnone
        exact absurd hnone hsome
    | ButtonPress b =>
        simp [handle_event] at hnone
        exact absurd hnone hsome
    | ButtonRelease b =>
        simp [handle_event] at hnone
        exact absurd hnone hsome
    | Wheel =>
        simp [handle_event] at hnone
        exact absurd hnone hsome
    | MouseMove x y =>
        cases hg : d.get_running with
        | false =>
            simp [handle_event, hg] at hnone
            exact absurd hnone hsome
        | true =>
            cases hd : d.initial_mouse_pos with
            | none => exact absurd hd hsome
            | some p =>
                obtain ⟨px, py⟩ := p
                rw [handle_move_check d x y px py hg hd] at hnone
                by_cases hdist : (x - px) * (x - px) + (y - py) * (y - py) >
                    MOVE_STOP_DISTANCE_PX * MOVE_STOP_DISTANCE_PX
                · rw [if_pos hdist, set_running_origin] at hnone
                  simp [hd] at hnone
                · rw [if_neg hdist] at hnone
                  exact absurd (hd ▸ hnone) (by simp)
  case rearm =>
    intro d pp qq r1 r2 hg hp
    have hg1 : ((d.set_running false r1).1).get_running = false :=
      set_running_flag d false r1
    have hg2 : (((d.set_running false r1).1).set_running true r2).1.get_running
        = true :=
      set_running_flag (d.set_running false r1).1 true r2
    have ho2 : (((d.set_running false r1).1).set_running true r2).1.initial_mouse_pos
        = none := by
      rw [set_running_origin]
      simp [hg1]
    rw [handle_move_capture _ qq.1 qq.2 hg2 ho2]
    refine ⟨by simp, ?_⟩
    simpa [Data.get_running] using hg2

/-- C2 witness: arming from the initial state clears the origin; a
redundant arming call on an armed state with origin (3, 4) changes
nothing; clearing the origin via a toggle press flips the flag to true;
and after disarming with origin (3, 4) and re-arming, the first move to
(20, 20) records (20, 20) as the new origin. -/
theorem arm_origin_reset_invariant_witness :
    (Data.new.set_running true ("w")).1.initial_mouse_pos = none ∧
    (({ is_running := true, initial_mouse_pos := some (3, 4) } : Data).set_running
        true ("w")).1
      = { is_running := true, initial_mouse_pos := some (3, 4) } ∧
    (handle_event (EventType.KeyPress Key.F8)
        { is_running := false, initial_mouse_pos := some (1, 2) }).1.get_running
      = true ∧
    (handle_event (EventType.MouseMove 20 20)
        ((({ is_running := true, initial_mouse_pos := some (3, 4) } : Data).set_running
            false ("w1")).1.set_running true ("w2")).1).1.initial_mouse_pos
      = some (20, 20) := by
  refine ⟨(arm_origin_reset_invariant.1 Data.new ("w") rfl).1,
    arm_origin_reset_invariant.2.2.1
      { is_running := true, initial_mouse_pos := some (3, 4) } ("w") rfl,
    ?_, ?_⟩
  · exact (arm_origin_reset_invariant.2.2.2.1
      { is_running := false, initial_mouse_pos := some (1, 2) }
      (EventType.KeyPress Key.F8) (by simp) rfl).2
  · have h := (arm_origin_reset_invariant.2.2.2.2
      { is_running := true, initial_mouse_pos := some (3, 4) } (3, 4) (20, 20)
      ("w1") ("w2") rfl rfl).1
    simpa using h

end AutoClicker
